import Mathlib

/-
Verification of the entangled-states Bell explorer
(`entangled_states_main.py`): a shallow embedding of the circuit
builder, the state-cycle controller, the event loop, the amplitude
grid mappers, the layout engine, and the image loader, together with
theorems settling the specification claims.
-/

namespace EntangledStates

/-! ## Bell state constants (lines 16-22 of the source) -/

def PHI_PLUS : Int := 0

def PHI_MINUS : Int := 1

def PSI_PLUS : Int := 2

def PSI_MINUS : Int := 3

def NUM_BELL_STATES : Int := 4

def COMP_BASIS_STATES : List String := ["00", "01", "10", "11"]

/-! ## BellCircuitBuilder (`create_bell_circuit`, lines 78-90) -/

/-- A gate operation on named qubit wires: X, H, or controlled-X. -/
inductive GateOp where
  | X (q : Nat)
  | H (q : Nat)
  | CX (control : Nat) (target : Nat)
deriving DecidableEq, Repr

/-- Embedding of `create_bell_circuit`: the list of gates appended to the
two-qubit circuit, in program order (lines 78-90 of the source). -/
def create_bell_circuit (bell_state_type : Int) : List GateOp :=
  (if bell_state_type = PHI_MINUS ∨ bell_state_type = PSI_MINUS
    then [GateOp.X 0] else [])
  ++ (if bell_state_type = PSI_PLUS ∨ bell_state_type = PSI_MINUS
    then [GateOp.X 1] else [])
  ++ [GateOp.H 0, GateOp.CX 0 1]

/-! ## StateCycleController (`main`, line 327) -/

/-- Embedding of line 327 of the source:
`cur_bell_state = (cur_bell_state + index_increment) % NUM_BELL_STATES`.
Python `%` with a positive modulus agrees with `Int.emod`. -/
def advance (state : Int) (delta : Int) : Int :=
  (state + delta) % NUM_BELL_STATES

/-! ## LayoutEngine (`HBox.arrange` lines 101-108, `VBox.arrange` lines 118-125) -/

/-- A sprite rectangle: position (left, top) and size (width, height). -/
structure Panel where
  left : Int
  top : Int
  width : Nat
  height : Nat
deriving DecidableEq, Repr

/-- Embedding of `HBox.arrange`: walk the sprite list, set each sprite's
left to the running x and its top to the anchor y, then advance the
running x by the sprite's width (lines 101-108). -/
def hboxArrange (xpos ypos : Int) : List Panel → List Panel
  | [] => []
  | p :: rest =>
    { p with left := xpos, top := ypos } :: hboxArrange (xpos + p.width) ypos rest

/-- Embedding of `VBox.arrange`: walk the sprite list, set each sprite's
left to the anchor x and its top to the running y, then advance the
running y by the sprite's height (lines 118-125). -/
def vboxArrange (xpos ypos : Int) : List Panel → List Panel
  | [] => []
  | p :: rest =>
    { p with left := xpos, top := ypos } :: vboxArrange xpos (ypos + p.height) rest

/-- Total width of a list of panels, as an integer. -/
def sumWidths (ps : List Panel) : Int := (ps.map (fun p => (p.width : Int))).sum

/-- Total height of a list of panels, as an integer. -/
def sumHeights (ps : List Panel) : Int := (ps.map (fun p => (p.height : Int))).sum

/-- The two panels of the worked spec example: sizes (100,50) and (80,60). -/
def examplePanels : List Panel :=
  [{ left := 0, top := 0, width := 100, height := 50 },
   { left := 0, top := 0, width := 80, height := 60 }]

/-! ## Event loop (`main`, lines 283-342) -/

/-- The keyboard keys the loop distinguishes (lines 320-325); every
other key behaves like `K_OTHER`. -/
inductive PgKey where
  | K_ESCAPE
  | K_RIGHT
  | K_DOWN
  | K_LEFT
  | K_UP
  | K_OTHER
deriving DecidableEq, Repr

/-- The event kinds the loop distinguishes (lines 316-318). -/
inductive PgEvent where
  | QUIT
  | KEYDOWN (key : PgKey)
  | OTHER
deriving DecidableEq, Repr

/-- The circuit each of the five views was last built from, i.e. the
argument of the most recent `set_circuit` call on each view. -/
structure Views where
  circuit_diagram : List GateOp
  unitary_grid : List GateOp
  histogram : List GateOp
  qsphere : List GateOp
  statevector_grid : List GateOp
deriving DecidableEq, Repr

/-- The mutable state of the main loop: the `going` flag, the current
Bell-state index, and the five views. -/
structure LoopState where
  going : Bool
  cur_bell_state : Int
  views : Views
deriving DecidableEq, Repr

/-- The `index_increment` a KEYDOWN key produces (lines 319-325):
1 for right or down, -1 for left or up, 0 otherwise. -/
def key_increment : PgKey → Int
  | PgKey.K_RIGHT => 1
  | PgKey.K_DOWN => 1
  | PgKey.K_LEFT => -1
  | PgKey.K_UP => -1
  | _ => 0

/-- The delta an arbitrary event produces: only KEYDOWN events carry a
key; all other events leave the increment at 0. -/
def event_increment : PgEvent → Int
  | PgEvent.KEYDOWN key => key_increment key
  | _ => 0

/-- Embedding of one iteration of the event-handling body
(lines 315-342): returns the new loop state and whether the
recompute-and-relayout side effects (the five `set_circuit` calls and
the three `arrange` calls) fired. -/
def process_event (st : LoopState) (e : PgEvent) : LoopState × Bool :=
  match e with
  | PgEvent.QUIT => ({ st with going := false }, false)
  | PgEvent.KEYDOWN key =>
    let going1 := if key = PgKey.K_ESCAPE then false else st.going
    let inc := key_increment key
    if inc ≠ 0 then
      let s := advance st.cur_bell_state inc
      let circuit := create_bell_circuit s
      ({ going := going1, cur_bell_state := s,
         views := { circuit_diagram := circuit, unitary_grid := circuit,
                    histogram := circuit, qsphere := circuit,
                    statevector_grid := circuit } }, true)
    else
      ({ st with going := going1 }, false)
  | PgEvent.OTHER => (st, false)

/-- Embedding of the initialisation of `main` (lines 289-299):
`cur_bell_state = PHI_PLUS`, one circuit is built from it, and all
five views are constructed from that circuit. -/
def main_init : Int × Views :=
  let cur_bell_state := PHI_PLUS
  let circuit := create_bell_circuit cur_bell_state
  (cur_bell_state,
   { circuit_diagram := circuit, unitary_grid := circuit,
     histogram := circuit, qsphere := circuit,
     statevector_grid := circuit })

/-- The loop state as it stands when the main loop is first entered. -/
def init_loop_state : LoopState :=
  { going := true, cur_bell_state := main_init.1, views := main_init.2 }

/-! ## Image loading (`load_image`, lines 49-61) -/

/-- An opaque loaded image surface: only its size matters to the core. -/
structure ImageSurface where
  width : Nat
  height : Nat
deriving DecidableEq, Repr

/-- Embedding of `load_image` (lines 49-61): build the full path under
the data directory and ask the backend loader for it; on failure print
which file could not be loaded and terminate the run by raising
`SystemExit(str(geterror()))`, modelled as `Except.error` carrying the
diagnostic; on success return the image. The first component collects
the lines printed. -/
def load_image (main_dir : String) (loader : String → Option ImageSurface)
    (geterror_msg : String) (name : String) :
    List String × Except String ImageSurface :=
  let fullname := main_dir ++ ("/data/") ++ name
  match loader fullname with
  | none =>
    ([("Cannot load image: ") ++ fullname], Except.error geterror_msg)
  | some image => ([], Except.ok image)

/-! ## AmplitudeGridMapper geometry (`StatevectorGrid.set_circuit`
lines 196-207, `UnitaryGrid.set_circuit` lines 233-247) -/

noncomputable section

/-- Magnitude of a complex amplitude given by its real and imaginary
parts: Python `abs` on a complex number. -/
def magnitude (re im : ℝ) : ℝ := Real.sqrt (re ^ 2 + im ^ 2)

/-- The scalar used to size a grid cell: the raw amplitude magnitude,
exactly as the source computes `abs(quantum_state[y])` (line 204) and
`abs(unitary[y][x])` (line 244). -/
def sizeFraction (re im : ℝ) : ℝ := magnitude re im

/-- A rectangle as passed to `pygame.Rect`: left, top, width, height. -/
structure Rect where
  left : ℝ
  top : ℝ
  width : ℝ
  height : ℝ

/-- `block_size = 30` (lines 196 and 233). -/
def block_size : ℝ := 30

/-- `x_offset = 50` (lines 197 and 234). -/
def x_offset : ℝ := 50

/-- `y_offset = 50` (lines 198 and 235). -/
def y_offset : ℝ := 50

/-- The rectangle built for statevector row `y` (lines 202-205). -/
def statevector_cell_rect (y : Nat) (re im : ℝ) : Rect :=
  { left := x_offset + block_size
    top := ((y : ℝ) + 1) * block_size + y_offset
    width := sizeFraction re im * block_size
    height := sizeFraction re im * block_size }

/-- The rectangle built for unitary row `y`, column `x`
(lines 242-245). -/
def unitary_cell_rect (y x : Nat) (re im : ℝ) : Rect :=
  { left := ((x : ℝ) + 1) * block_size + x_offset
    top := ((y : ℝ) + 1) * block_size + y_offset
    width := sizeFraction re im * block_size
    height := sizeFraction re im * block_size }

/-- A rendering-agnostic grid cell: its grid indices, its basis label,
its size fraction, its rectangle, and whether the rectangle is drawn
(the source draws it only when the magnitude is strictly positive,
lines 206-207 and 246-247). -/
structure GridCell where
  row : Nat
  col : Nat
  label : String
  sizeFrac : ℝ
  rect : Rect
  drawable : Prop

/-- The cell the statevector loop emits for row `y` (lines 199-207);
the statevector grid has a single value column. -/
def svCell (y : Nat) (lab : String) (a : ℝ × ℝ) : GridCell :=
  { row := y, col := 0, label := lab,
    sizeFrac := sizeFraction a.1 a.2,
    rect := statevector_cell_rect y a.1 a.2,
    drawable := 0 < magnitude a.1 a.2 }

/-- The cell the unitary loop emits for row `y`, column `x`
(lines 239-247). -/
def uCell (y x : Nat) (lab : String) (a : ℝ × ℝ) : GridCell :=
  { row := y, col := x, label := lab,
    sizeFrac := sizeFraction a.1 a.2,
    rect := unitary_cell_rect y x a.1 a.2,
    drawable := 0 < magnitude a.1 a.2 }

end

/-! ## AmplitudeGridMapper traversal: basis-label lookups and the cell
lists emitted by the statevector and unitary loops -/

/-- Python `COMP_BASIS_STATES[y]`: an in-range index yields the label,
an out-of-range index raises IndexError, modelled as `none`. -/
def comp_basis_label (y : Nat) : Option String := COMP_BASIS_STATES.get? y

noncomputable section

/-- The statevector loop (lines 199-207) from index `k` with `m` rows
remaining: each row looks up its basis label — failing past index 3 —
and emits its cell. The vector is given by its entries `v`. -/
def mapVectorAux (v : Nat → ℝ × ℝ) : Nat → Nat → Option (List GridCell)
  | _, 0 => some []
  | k, m + 1 =>
    match comp_basis_label k with
    | none => none
    | some lab =>
      match mapVectorAux v (k + 1) m with
      | none => none
      | some cells => some (svCell k lab (v k) :: cells)

/-- The cells the statevector loop emits from index `k` for `m` rows,
when every label lookup is in range. -/
def svCells (v : Nat → ℝ × ℝ) : Nat → Nat → List GridCell
  | _, 0 => []
  | k, m + 1 =>
    svCell k (COMP_BASIS_STATES.getD k ("")) (v k) :: svCells v (k + 1) m

/-- `StatevectorGrid.set_circuit`: map a statevector of length `n`. -/
def mapVector (n : Nat) (v : Nat → ℝ × ℝ) : Option (List GridCell) :=
  mapVectorAux v 0 n

/-- The inner unitary loop (lines 239-247) for row `y` from column `k`
with `m` columns remaining: each column looks up its basis label and
emits its cell. -/
def mapRowAux (u : Nat → Nat → ℝ × ℝ) (y : Nat) : Nat → Nat → Option (List GridCell)
  | _, 0 => some []
  | k, m + 1 =>
    match comp_basis_label k with
    | none => none
    | some lab =>
      match mapRowAux u y (k + 1) m with
      | none => none
      | some cells => some (uCell y k lab (u y k) :: cells)

/-- The cells the inner unitary loop emits for row `y` from column `k`
for `m` columns, when every label lookup is in range. -/
def rowCells (u : Nat → Nat → ℝ × ℝ) (y : Nat) : Nat → Nat → List GridCell
  | _, 0 => []
  | k, m + 1 =>
    uCell y k (COMP_BASIS_STATES.getD k ("")) (u y k) :: rowCells u y (k + 1) m

/-- The outer unitary loop (lines 236-247) from row `k` with `m` rows
remaining over an `n`-dimensional matrix: each row looks up its own
basis label, then runs the full inner column loop. -/
def mapMatrixAux (u : Nat → Nat → ℝ × ℝ) (n : Nat) :
    Nat → Nat → Option (List (List GridCell))
  | _, 0 => some []
  | k, m + 1 =>
    match comp_basis_label k with
    | none => none
    | some _ =>
      match mapRowAux u k 0 n with
      | none => none
      | some row =>
        match mapMatrixAux u n (k + 1) m with
        | none => none
        | some rows => some (row :: rows)

/-- The rows the outer unitary loop emits from row `k` for `m` rows,
when every label lookup is in range. -/
def matRows (u : Nat → Nat → ℝ × ℝ) (n : Nat) : Nat → Nat → List (List GridCell)
  | _, 0 => []
  | k, m + 1 => rowCells u k 0 n :: matRows u n (k + 1) m

/-- `UnitaryGrid.set_circuit`: map an `n × n` unitary matrix. -/
def mapMatrix (n : Nat) (u : Nat → Nat → ℝ × ℝ) : Option (List (List GridCell)) :=
  mapMatrixAux u n 0 n

end

/-! ## Helper lemmas -/

lemma sumWidths_nonneg (ps : List Panel) : 0 ≤ sumWidths ps := by
  induction ps with
  | nil => simp [sumWidths]
  | cons p rest ih =>
    simp only [sumWidths, List.map_cons, List.sum_cons]
    have : (0:Int) ≤ (p.width : Int) := Int.natCast_nonneg _
    simp only [sumWidths] at ih
    omega

lemma sumHeights_nonneg (ps : List Panel) : 0 ≤ sumHeights ps := by
  induction ps with
  | nil => simp [sumHeights]
  | cons p rest ih =>
    simp only [sumHeights, List.map_cons, List.sum_cons]
    have : (0:Int) ≤ (p.height : Int) := Int.natCast_nonneg _
    simp only [sumHeights] at ih
    omega

lemma sumWidths_take_mono (ps : List Panel) :
    ∀ i j : Nat, i ≤ j → sumWidths (ps.take i) ≤ sumWidths (ps.take j) := by
  induction ps with
  | nil => intro i j _; simp
  | cons p rest ih =>
    intro i j hij
    cases i with
    | zero =>
      have h0 : sumWidths (List.take 0 (p :: rest)) = 0 := by simp [sumWidths]
      rw [h0]
      cases j with
      | zero => simp [sumWidths]
      | succ j =>
        simp only [List.take_succ_cons, sumWidths, List.map_cons, List.sum_cons]
        have h1 : (0:Int) ≤ (p.width : Int) := Int.natCast_nonneg _
        have h2 := sumWidths_nonneg (rest.take j)
        simp only [sumWidths] at h2
        omega
    | succ i =>
      cases j with
      | zero => omega
      | succ j =>
        simp only [List.take_succ_cons, sumWidths, List.map_cons, List.sum_cons]
        have := ih i j (by omega)
        simp only [sumWidths] at this
        omega

lemma sumHeights_take_mono (ps : List Panel) :
    ∀ i j : Nat, i ≤ j → sumHeights (ps.take i) ≤ sumHeights (ps.take j) := by
  induction ps with
  | nil => intro i j _; simp
  | cons p rest ih =>
    intro i j hij
    cases i with
    | zero =>
      have h0 : sumHeights (List.take 0 (p :: rest)) = 0 := by simp [sumHeights]
      rw [h0]
      cases j with
      | zero => simp [sumHeights]
      | succ j =>
        simp only [List.take_succ_cons, sumHeights, List.map_cons, List.sum_cons]
        have h1 : (0:Int) ≤ (p.height : Int) := Int.natCast_nonneg _
        have h2 := sumHeights_nonneg (rest.take j)
        simp only [sumHeights] at h2
        omega
    | succ i =>
      cases j with
      | zero => omega
      | succ j =>
        simp only [List.take_succ_cons, sumHeights, List.map_cons, List.sum_cons]
        have := ih i j (by omega)
        simp only [sumHeights] at this
        omega

lemma sumWidths_take_succ (ps : List Panel) :
    ∀ (i : Nat) (q : Panel), ps.get? i = some q →
      sumWidths (ps.take (i + 1)) = sumWidths (ps.take i) + q.width := by
  induction ps with
  | nil => intro i q h; simp at h
  | cons p rest ih =>
    intro i q h
    cases i with
    | zero =>
      simp only [List.get?_cons_zero, Option.some.injEq] at h
      subst h
      simp [sumWidths]
    | succ i =>
      simp only [List.get?_cons_succ] at h
      simp only [List.take_succ_cons, sumWidths, List.map_cons, List.sum_cons]
      have := ih i q h
      simp only [sumWidths] at this
      omega

lemma sumHeights_take_succ (ps : List Panel) :
    ∀ (i : Nat) (q : Panel), ps.get? i = some q →
      sumHeights (ps.take (i + 1)) = sumHeights (ps.take i) + q.height := by
  induction ps with
  | nil => intro i q h; simp at h
  | cons p rest ih =>
    intro i q h
    cases i with
    | zero =>
      simp only [List.get?_cons_zero, Option.some.injEq] at h
      subst h
      simp [sumHeights]
    | succ i =>
      simp only [List.get?_cons_succ] at h
      simp only [List.take_succ_cons, sumHeights, List.map_cons, List.sum_cons]
      have := ih i q h
      simp only [sumHeights] at this
      omega

lemma hboxArrange_get? (ps : List Panel) :
    ∀ (xpos ypos : Int) (i : Nat),
      (hboxArrange xpos ypos ps).get? i =
        (ps.get? i).map
          (fun p => { p with left := xpos + sumWidths (ps.take i), top := ypos }) := by
  induction ps with
  | nil => intro x y i; simp [hboxArrange]
  | cons p rest ih =>
    intro x y i
    cases i with
    | zero => simp [hboxArrange, sumWidths]
    | succ i =>
      simp only [hboxArrange, List.get?_cons_succ, List.take_succ_cons,
        sumWidths, List.map_cons, List.sum_cons]
      rw [ih (x + p.width) y i]
      simp only [sumWidths]
      congr 1
      funext q
      congr 1
      omega

lemma vboxArrange_get? (ps : List Panel) :
    ∀ (xpos ypos : Int) (i : Nat),
      (vboxArrange xpos ypos ps).get? i =
        (ps.get? i).map
          (fun p => { p with left := xpos, top := ypos + sumHeights (ps.take i) }) := by
  induction ps with
  | nil => intro x y i; simp [vboxArrange]
  | cons p rest ih =>
    intro x y i
    cases i with
    | zero => simp [vboxArrange, sumHeights]
    | succ i =>
      simp only [vboxArrange, List.get?_cons_succ, List.take_succ_cons,
        sumHeights, List.map_cons, List.sum_cons]
      rw [ih x (y + p.height) i]
      simp only [sumHeights]
      congr 1
      funext q
      congr 1
      omega

lemma hboxArrange_length (xpos ypos : Int) (ps : List Panel) :
    (hboxArrange xpos ypos ps).length = ps.length := by
  induction ps generalizing xpos with
  | nil => rfl
  | cons p rest ih => simp [hboxArrange, ih]

lemma vboxArrange_length (xpos ypos : Int) (ps : List Panel) :
    (vboxArrange xpos ypos ps).length = ps.length := by
  induction ps generalizing ypos with
  | nil => rfl
  | cons p rest ih => simp [vboxArrange, ih]

lemma hboxArrange_idem (xpos ypos : Int) (ps : List Panel) :
    hboxArrange xpos ypos (hboxArrange xpos ypos ps) = hboxArrange xpos ypos ps := by
  induction ps generalizing xpos with
  | nil => rfl
  | cons p rest ih => simp [hboxArrange, ih]

lemma vboxArrange_idem (xpos ypos : Int) (ps : List Panel) :
    vboxArrange xpos ypos (vboxArrange xpos ypos ps) = vboxArrange xpos ypos ps := by
  induction ps generalizing ypos with
  | nil => rfl
  | cons p rest ih => simp [vboxArrange, ih]

lemma magnitude_nonneg (re im : ℝ) : 0 ≤ magnitude re im :=
  Real.sqrt_nonneg _

lemma magnitude_one_zero : magnitude 1 0 = 1 := by
  show Real.sqrt ((1:ℝ) ^ 2 + (0:ℝ) ^ 2) = 1
  rw [show (1:ℝ) ^ 2 + (0:ℝ) ^ 2 = 1 by norm_num]
  exact Real.sqrt_one

lemma magnitude_two_zero : magnitude 2 0 = 2 := by
  show Real.sqrt ((2:ℝ) ^ 2 + (0:ℝ) ^ 2) = 2
  rw [show (2:ℝ) ^ 2 + (0:ℝ) ^ 2 = 2 ^ 2 by norm_num]
  exact Real.sqrt_sq (by norm_num)

lemma comp_basis_label_lt {k : Nat} (h : k < 4) :
    comp_basis_label k = some (COMP_BASIS_STATES.getD k ("")) := by
  interval_cases k <;> rfl

lemma comp_basis_label_ge {k : Nat} (h : 4 ≤ k) :
    comp_basis_label k = none := by
  rw [comp_basis_label, List.get?_eq_none]
  simpa [COMP_BASIS_STATES] using h

lemma svCells_length (v : Nat → ℝ × ℝ) :
    ∀ m k : Nat, (svCells v k m).length = m := by
  intro m
  induction m with
  | zero => intro k; rfl
  | succ m ih => intro k; simp [svCells, ih]

lemma svCells_get? (v : Nat → ℝ × ℝ) :
    ∀ m k i : Nat, i < m →
      (svCells v k m).get? i =
        some (svCell (k + i) (COMP_BASIS_STATES.getD (k + i) ("")) (v (k + i))) := by
  intro m
  induction m with
  | zero => intro k i h; omega
  | succ m ih =>
    intro k i h
    cases i with
    | zero => simp [svCells]
    | succ i =>
      rw [svCells, List.get?_cons_succ, ih (k + 1) i (by omega)]
      rw [show k + 1 + i = k + (i + 1) by omega]

lemma mapVectorAux_some (v : Nat → ℝ × ℝ) :
    ∀ m k : Nat, k + m ≤ 4 → mapVectorAux v k m = some (svCells v k m) := by
  intro m
  induction m with
  | zero => intro k _; rfl
  | succ m ih =>
    intro k h
    rw [mapVectorAux, comp_basis_label_lt (show k < 4 by omega),
      ih (k + 1) (by omega)]
    rfl

lemma mapVectorAux_none (v : Nat → ℝ × ℝ) :
    ∀ m k : Nat, k ≤ 4 → 4 < k + m → mapVectorAux v k m = none := by
  intro m
  induction m with
  | zero => intro k h1 h2; omega
  | succ m ih =>
    intro k h1 h2
    by_cases hk : k < 4
    · rw [mapVectorAux, comp_basis_label_lt hk, ih (k + 1) (by omega) (by omega)]
    · rw [mapVectorAux, comp_basis_label_ge (show 4 ≤ k by omega)]

lemma rowCells_length (u : Nat → Nat → ℝ × ℝ) (y : Nat) :
    ∀ m k : Nat, (rowCells u y k m).length = m := by
  intro m
  induction m with
  | zero => intro k; rfl
  | succ m ih => intro k; simp [rowCells, ih]

lemma rowCells_get? (u : Nat → Nat → ℝ × ℝ) (y : Nat) :
    ∀ m k i : Nat, i < m →
      (rowCells u y k m).get? i =
        some (uCell y (k + i) (COMP_BASIS_STATES.getD (k + i) ("")) (u y (k + i))) := by
  intro m
  induction m with
  | zero => intro k i h; omega
  | succ m ih =>
    intro k i h
    cases i with
    | zero => simp [rowCells]
    | succ i =>
      rw [rowCells, List.get?_cons_succ, ih (k + 1) i (by omega)]
      rw [show k + 1 + i = k + (i + 1) by omega]

lemma mapRowAux_some (u : Nat → Nat → ℝ × ℝ) (y : Nat) :
    ∀ m k : Nat, k + m ≤ 4 → mapRowAux u y k m = some (rowCells u y k m) := by
  intro m
  induction m with
  | zero => intro k _; rfl
  | succ m ih =>
    intro k h
    rw [mapRowAux, comp_basis_label_lt (show k < 4 by omega),
      ih (k + 1) (by omega)]
    rfl

lemma mapRowAux_none (u : Nat → Nat → ℝ × ℝ) (y : Nat) :
    ∀ m k : Nat, k ≤ 4 → 4 < k + m → mapRowAux u y k m = none := by
  intro m
  induction m with
  | zero => intro k h1 h2; omega
  | succ m ih =>
    intro k h1 h2
    by_cases hk : k < 4
    · rw [mapRowAux, comp_basis_label_lt hk, ih (k + 1) (by omega) (by omega)]
    · rw [mapRowAux, comp_basis_label_ge (show 4 ≤ k by omega)]

lemma matRows_length (u : Nat → Nat → ℝ × ℝ) (n : Nat) :
    ∀ m k : Nat, (matRows u n k m).length = m := by
  intro m
  induction m with
  | zero => intro k; rfl
  | succ m ih => intro k; simp [matRows, ih]

lemma matRows_get? (u : Nat → Nat → ℝ × ℝ) (n : Nat) :
    ∀ m k i : Nat, i < m →
      (matRows u n k m).get? i = some (rowCells u (k + i) 0 n) := by
  intro m
  induction m with
  | zero => intro k i h; omega
  | succ m ih =>
    intro k i h
    cases i with
    | zero => simp [matRows]
    | succ i =>
      rw [matRows, List.get?_cons_succ, ih (k + 1) i (by omega)]
      rw [show k + 1 + i = k + (i + 1) by omega]

lemma mapMatrixAux_some (u : Nat → Nat → ℝ × ℝ) {n : Nat} (hn : n ≤ 4) :
    ∀ m k : Nat, k + m ≤ 4 → mapMatrixAux u n k m = some (matRows u n k m) := by
  intro m
  induction m with
  | zero => intro k _; rfl
  | succ m ih =>
    intro k h
    rw [mapMatrixAux, comp_basis_label_lt (show k < 4 by omega),
      mapRowAux_some u k n 0 (by omega), ih (k + 1) (by omega)]
    rfl

lemma mapMatrix_none (n : Nat) (u : Nat → Nat → ℝ × ℝ) (h : 4 < n) :
    mapMatrix n u = none := by
  obtain ⟨m, rfl⟩ : ∃ m, n = m + 1 := ⟨n - 1, by omega⟩
  rw [mapMatrix, mapMatrixAux, comp_basis_label_lt (show 0 < 4 by omega),
    mapRowAux_none u 0 (m + 1) 0 (by omega) (by omega)]

/-! ## Claim theorems and witnesses -/

/-- C1: for every selector among the four Bell constants, building the
Bell circuit produces exactly the stated gate sequence: X(q0) iff the
selector is PHI_MINUS or PSI_MINUS, then X(q1) iff the selector is
PSI_PLUS or PSI_MINUS, then H(q0), then CX(q0,q1); the builder is a
total function, so it is deterministic and has no error path. -/
theorem create_bell_circuit_gates :
    create_bell_circuit PHI_PLUS = [GateOp.H 0, GateOp.CX 0 1] ∧
    create_bell_circuit PHI_MINUS = [GateOp.X 0, GateOp.H 0, GateOp.CX 0 1] ∧
    create_bell_circuit PSI_PLUS = [GateOp.X 1, GateOp.H 0, GateOp.CX 0 1] ∧
    create_bell_circuit PSI_MINUS =
      [GateOp.X 0, GateOp.X 1, GateOp.H 0, GateOp.CX 0 1] := by
  decide

/-- C2: for every state in {0,1,2,3} and delta in {-1,+1}, the
state-cycle transition equals (s + delta + 4) mod 4 and stays in
{0,1,2,3}; advancing by +1 then -1 returns the original state, and
advancing by +1 four times returns the original state. -/
theorem advance_group_action (s d : Int)
    (hs : 0 ≤ s ∧ s < 4) (hd : d = -1 ∨ d = 1) :
    advance s d = (s + d + 4) % 4 ∧
    (0 ≤ advance s d ∧ advance s d < 4) ∧
    advance (advance s 1) (-1) = s ∧
    advance (advance (advance (advance s 1) 1) 1) 1 = s := by
  obtain ⟨h0, h4⟩ := hs
  simp only [advance, NUM_BELL_STATES]
  rcases hd with rfl | rfl <;> omega

/-- Witness for C2 at state 2 with delta -1. -/
theorem advance_group_action_witness :
    ((0:Int) ≤ 2 ∧ (2:Int) < 4) ∧ ((-1:Int) = -1 ∨ (-1:Int) = 1) ∧
    (advance 2 (-1) = (2 + (-1) + 4) % 4 ∧
     (0 ≤ advance 2 (-1) ∧ advance 2 (-1) < 4) ∧
     advance (advance 2 1) (-1) = 2 ∧
     advance (advance (advance (advance 2 1) 1) 1) 1 = 2) :=
  ⟨by decide, by decide, advance_group_action 2 (-1) (by decide) (by decide)⟩

/-- C3: in each loop iteration the recompute-and-relayout side effects
fire exactly when the processed event carries a non-zero delta; a
zero-delta event leaves the views and the Bell-state index untouched,
and a non-zero delta advances the index and rebuilds all five views
from the circuit of the new index. -/
theorem recompute_iff_nonzero_delta (st : LoopState) (e : PgEvent) :
    ((process_event st e).2 = true ↔ event_increment e ≠ 0) ∧
    (event_increment e = 0 →
      (process_event st e).1.views = st.views ∧
      (process_event st e).1.cur_bell_state = st.cur_bell_state) ∧
    (event_increment e ≠ 0 →
      (process_event st e).1.cur_bell_state =
        advance st.cur_bell_state (event_increment e) ∧
      (process_event st e).1.views =
        { circuit_diagram :=
            create_bell_circuit (advance st.cur_bell_state (event_increment e)),
          unitary_grid :=
            create_bell_circuit (advance st.cur_bell_state (event_increment e)),
          histogram :=
            create_bell_circuit (advance st.cur_bell_state (event_increment e)),
          qsphere :=
            create_bell_circuit (advance st.cur_bell_state (event_increment e)),
          statevector_grid :=
            create_bell_circuit (advance st.cur_bell_state (event_increment e)) }) := by
  cases e with
  | QUIT => simp [process_event, event_increment]
  | OTHER => simp [process_event, event_increment]
  | KEYDOWN key =>
    cases key <;>
      simp [process_event, event_increment, key_increment]

/-- Witness for C3: pressing Escape (delta 0) fires no recomputation
and changes no view, from the initial loop state. -/
theorem recompute_iff_nonzero_delta_witness :
    event_increment (PgEvent.KEYDOWN PgKey.K_ESCAPE) = 0 ∧
    (process_event init_loop_state (PgEvent.KEYDOWN PgKey.K_ESCAPE)).1.views =
      init_loop_state.views ∧
    (process_event init_loop_state (PgEvent.KEYDOWN PgKey.K_ESCAPE)).1.cur_bell_state =
      init_loop_state.cur_bell_state :=
  ⟨by decide,
    ((recompute_iff_nonzero_delta init_loop_state
        (PgEvent.KEYDOWN PgKey.K_ESCAPE)).2.1 (by decide)).1,
    ((recompute_iff_nonzero_delta init_loop_state
        (PgEvent.KEYDOWN PgKey.K_ESCAPE)).2.1 (by decide)).2⟩

/-- C4: every emitted cell is a square at the grid position given by
its indices: the statevector cell for row r sits at
(xOffset + (0+1)·pitch, yOffset + (r+1)·pitch), the unitary cell for
row r and column c sits at (xOffset + (c+1)·pitch, yOffset +
(r+1)·pitch), and both have width and height equal to
sizeFraction · pitch with sizeFraction = |amplitude| =
sqrt(re² + im²). -/
theorem cell_geometry (r c : Nat) (re im : ℝ) :
    (statevector_cell_rect r re im).left = x_offset + ((0 : ℝ) + 1) * block_size ∧
    (statevector_cell_rect r re im).top = y_offset + ((r : ℝ) + 1) * block_size ∧
    (statevector_cell_rect r re im).width = sizeFraction re im * block_size ∧
    (statevector_cell_rect r re im).height = sizeFraction re im * block_size ∧
    (unitary_cell_rect r c re im).left = x_offset + ((c : ℝ) + 1) * block_size ∧
    (unitary_cell_rect r c re im).top = y_offset + ((r : ℝ) + 1) * block_size ∧
    (unitary_cell_rect r c re im).width = sizeFraction re im * block_size ∧
    (unitary_cell_rect r c re im).height = sizeFraction re im * block_size ∧
    sizeFraction re im = Real.sqrt (re ^ 2 + im ^ 2) := by
  refine ⟨?_, ?_, rfl, rfl, ?_, ?_, rfl, rfl, rfl⟩ <;>
    simp [statevector_cell_rect, unitary_cell_rect] <;> ring

/-- Counterexample to C5 as stated: for an input amplitude of raw
magnitude 2 the emitted sizeFraction is 2, which exceeds 1 and differs
from the magnitude clamped to [0,1] — the source never clamps. -/
theorem size_fraction_not_clamped :
    sizeFraction 2 0 = 2 ∧ 1 < sizeFraction 2 0 ∧
    sizeFraction 2 0 ≠ min (magnitude 2 0) 1 := by
  have h : sizeFraction 2 0 = 2 := magnitude_two_zero
  refine ⟨h, by rw [h]; norm_num, ?_⟩
  rw [h, magnitude_two_zero]
  norm_num

/-- C5 (amended): the GridCell sizeFraction equals the amplitude's raw
magnitude with no clamping applied; it is never negative, it is what
scales the cell rectangle, and whenever the raw magnitude is at most 1
(as for every valid statevector or unitary entry) it lies in [0,1]. -/
theorem size_fraction_raw_magnitude (r : Nat) (re im : ℝ)
    (h : magnitude re im ≤ 1) :
    sizeFraction re im = magnitude re im ∧
    0 ≤ sizeFraction re im ∧
    (statevector_cell_rect r re im).width = sizeFraction re im * block_size ∧
    sizeFraction re im ≤ 1 :=
  ⟨rfl, magnitude_nonneg re im, rfl, h⟩

/-- Witness for C5 (amended) at the amplitude 1 + 0i. -/
theorem size_fraction_raw_magnitude_witness :
    magnitude 1 0 ≤ 1 ∧
    (sizeFraction 1 0 = magnitude 1 0 ∧
     0 ≤ sizeFraction 1 0 ∧
     (statevector_cell_rect 0 1 0).width = sizeFraction 1 0 * block_size ∧
     sizeFraction 1 0 ≤ 1) :=
  ⟨le_of_eq magnitude_one_zero,
    size_fraction_raw_magnitude 0 1 0 (le_of_eq magnitude_one_zero)⟩

/-- C6: within the mapper's domain (dimension at most 4, the 2-qubit
case), the statevector mapper emits one cell slot per index and the
unitary mapper one slot per (row, column) pair; each slot's label and
grid position are determined by its indices alone, independent of the
amplitudes, so the grid geometry is stable across state changes; a
cell's rectangle is drawable exactly when its amplitude magnitude is
strictly positive, and a zero-magnitude cell is still emitted but with
a zero-area rectangle. -/
theorem grid_mapper_stable_cells (n : Nat) (v : Nat → ℝ × ℝ)
    (u : Nat → Nat → ℝ × ℝ) (hn : n ≤ 4) :
    (∃ cells, mapVector n v = some cells ∧ cells.length = n ∧
      ∀ i : Nat, i < n → ∃ c, cells.get? i = some c ∧
        c.row = i ∧ c.col = 0 ∧
        c.label = COMP_BASIS_STATES.getD i ("") ∧
        c.rect.left = x_offset + block_size ∧
        c.rect.top = ((i : ℝ) + 1) * block_size + y_offset ∧
        (c.drawable ↔ 0 < magnitude (v i).1 (v i).2) ∧
        (magnitude (v i).1 (v i).2 = 0 → c.rect.width = 0 ∧ c.rect.height = 0)) ∧
    (∃ rows, mapMatrix n u = some rows ∧ rows.length = n ∧
      ∀ y : Nat, y < n → ∃ rc, rows.get? y = some rc ∧ rc.length = n ∧
        ∀ x : Nat, x < n → ∃ c, rc.get? x = some c ∧
          c.row = y ∧ c.col = x ∧
          c.label = COMP_BASIS_STATES.getD x ("") ∧
          c.rect.left = ((x : ℝ) + 1) * block_size + x_offset ∧
          c.rect.top = ((y : ℝ) + 1) * block_size + y_offset ∧
          (c.drawable ↔ 0 < magnitude (u y x).1 (u y x).2) ∧
          (magnitude (u y x).1 (u y x).2 = 0 →
            c.rect.width = 0 ∧ c.rect.height = 0)) := by
  constructor
  · refine ⟨svCells v 0 n, mapVectorAux_some v n 0 (by omega),
      svCells_length v n 0, ?_⟩
    intro i hi
    refine ⟨svCell i (COMP_BASIS_STATES.getD i ("")) (v i), ?_, rfl, rfl, rfl,
      rfl, rfl, Iff.rfl, ?_⟩
    · rw [svCells_get? v n 0 i hi, Nat.zero_add]
    · intro h0
      constructor <;>
        · show sizeFraction (v i).1 (v i).2 * block_size = 0
          rw [sizeFraction, h0, zero_mul]
  · refine ⟨matRows u n 0 n, mapMatrixAux_some u hn n 0 (by omega),
      matRows_length u n n 0, ?_⟩
    intro y hy
    refine ⟨rowCells u y 0 n, ?_, rowCells_length u y n 0, ?_⟩
    · rw [matRows_get? u n n 0 y hy, Nat.zero_add]
    intro x hx
    refine ⟨uCell y x (COMP_BASIS_STATES.getD x ("")) (u y x), ?_, rfl, rfl,
      rfl, rfl, rfl, Iff.rfl, ?_⟩
    · rw [rowCells_get? u y n 0 x hx, Nat.zero_add]
    · intro h0
      constructor <;>
        · show sizeFraction (u y x).1 (u y x).2 * block_size = 0
          rw [sizeFraction, h0, zero_mul]

/-- Witness for C6 at dimension 1 with amplitude 1 + 0i everywhere. -/
theorem grid_mapper_stable_cells_witness :
    (1 ≤ 4) ∧
    ((∃ cells, mapVector 1 (fun _ => ((1:ℝ), (0:ℝ))) = some cells ∧
      cells.length = 1 ∧
      ∀ i : Nat, i < 1 → ∃ c, cells.get? i = some c ∧
        c.row = i ∧ c.col = 0 ∧
        c.label = COMP_BASIS_STATES.getD i ("") ∧
        c.rect.left = x_offset + block_size ∧
        c.rect.top = ((i : ℝ) + 1) * block_size + y_offset ∧
        (c.drawable ↔ 0 < magnitude ((fun _ => ((1:ℝ), (0:ℝ))) i).1
          ((fun _ => ((1:ℝ), (0:ℝ))) i).2) ∧
        (magnitude ((fun _ => ((1:ℝ), (0:ℝ))) i).1
            ((fun _ => ((1:ℝ), (0:ℝ))) i).2 = 0 →
          c.rect.width = 0 ∧ c.rect.height = 0)) ∧
    (∃ rows, mapMatrix 1 (fun _ _ => ((1:ℝ), (0:ℝ))) = some rows ∧
      rows.length = 1 ∧
      ∀ y : Nat, y < 1 → ∃ rc, rows.get? y = some rc ∧ rc.length = 1 ∧
        ∀ x : Nat, x < 1 → ∃ c, rc.get? x = some c ∧
          c.row = y ∧ c.col = x ∧
          c.label = COMP_BASIS_STATES.getD x ("") ∧
          c.rect.left = ((x : ℝ) + 1) * block_size + x_offset ∧
          c.rect.top = ((y : ℝ) + 1) * block_size + y_offset ∧
          (c.drawable ↔ 0 < magnitude ((fun _ _ => ((1:ℝ), (0:ℝ))) y x).1
            ((fun _ _ => ((1:ℝ), (0:ℝ))) y x).2) ∧
          (magnitude ((fun _ _ => ((1:ℝ), (0:ℝ))) y x).1
              ((fun _ _ => ((1:ℝ), (0:ℝ))) y x).2 = 0 →
            c.rect.width = 0 ∧ c.rect.height = 0))) :=
  ⟨by norm_num,
    grid_mapper_stable_cells 1 (fun _ => ((1:ℝ), (0:ℝ)))
      (fun _ _ => ((1:ℝ), (0:ℝ))) (by norm_num)⟩

/-- C7: a horizontal group anchored at (x,y) places panel i at
left = x + sum of the widths of the earlier panels with top = y, and a
vertical group places panel i at top = y + sum of the earlier heights
with left = x; on the example panels of sizes (100,50) and (80,60)
anchored at (0,0) the horizontal lefts are 0 and 100 with tops 0, and
the vertical tops are 0 and 50 with lefts 0; panels of one group never
overlap along its stacking axis, and arrange is idempotent. -/
theorem arrange_spec (x y : Int) (ps : List Panel) :
    ((hboxArrange x y ps).length = ps.length ∧
     ∀ i : Nat, (hboxArrange x y ps).get? i =
       (ps.get? i).map
         (fun p => { p with left := x + sumWidths (ps.take i), top := y })) ∧
    ((vboxArrange x y ps).length = ps.length ∧
     ∀ i : Nat, (vboxArrange x y ps).get? i =
       (ps.get? i).map
         (fun p => { p with left := x, top := y + sumHeights (ps.take i) })) ∧
    (∀ (i j : Nat) (pi pj : Panel), i < j →
       (hboxArrange x y ps).get? i = some pi →
       (hboxArrange x y ps).get? j = some pj →
       pi.left + pi.width ≤ pj.left) ∧
    (∀ (i j : Nat) (pi pj : Panel), i < j →
       (vboxArrange x y ps).get? i = some pi →
       (vboxArrange x y ps).get? j = some pj →
       pi.top + pi.height ≤ pj.top) ∧
    hboxArrange x y (hboxArrange x y ps) = hboxArrange x y ps ∧
    vboxArrange x y (vboxArrange x y ps) = vboxArrange x y ps ∧
    (hboxArrange 0 0 examplePanels).map Panel.left = [0, 100] ∧
    (hboxArrange 0 0 examplePanels).map Panel.top = [0, 0] ∧
    (vboxArrange 0 0 examplePanels).map Panel.top = [0, 50] ∧
    (vboxArrange 0 0 examplePanels).map Panel.left = [0, 0] := by
  refine ⟨⟨hboxArrange_length x y ps, hboxArrange_get? ps x y⟩,
    ⟨vboxArrange_length x y ps, vboxArrange_get? ps x y⟩, ?_, ?_,
    hboxArrange_idem x y ps, vboxArrange_idem x y ps,
    by decide, by decide, by decide, by decide⟩
  · intro i j pi pj hij hi hj
    rw [hboxArrange_get? ps x y i] at hi
    rw [hboxArrange_get? ps x y j] at hj
    rcases hqi : ps.get? i with _ | qi
    · rw [hqi] at hi; simp at hi
    rcases hqj : ps.get? j with _ | qj
    · rw [hqj] at hj; simp at hj
    rw [hqi] at hi
    rw [hqj] at hj
    simp only [Option.map_some', Option.some.injEq] at hi hj
    subst hi
    subst hj
    show x + sumWidths (ps.take i) + (qi.width : Int) ≤ x + sumWidths (ps.take j)
    have hsucc := sumWidths_take_succ ps i qi hqi
    have hmono := sumWidths_take_mono ps (i + 1) j (by omega)
    omega
  · intro i j pi pj hij hi hj
    rw [vboxArrange_get? ps x y i] at hi
    rw [vboxArrange_get? ps x y j] at hj
    rcases hqi : ps.get? i with _ | qi
    · rw [hqi] at hi; simp at hi
    rcases hqj : ps.get? j with _ | qj
    · rw [hqj] at hj; simp at hj
    rw [hqi] at hi
    rw [hqj] at hj
    simp only [Option.map_some', Option.some.injEq] at hi hj
    subst hi
    subst hj
    show y + sumHeights (ps.take i) + (qi.height : Int) ≤ y + sumHeights (ps.take j)
    have hsucc := sumHeights_take_succ ps i qi hqi
    have hmono := sumHeights_take_mono ps (i + 1) j (by omega)
    omega

/-- Witness for C7: the non-overlap conclusion instantiated on the two
example panels arranged horizontally at the origin. -/
theorem arrange_spec_witness :
    (0 < 1) ∧
    (hboxArrange 0 0 examplePanels).get? 0 =
      some { left := 0, top := 0, width := 100, height := 50 } ∧
    (hboxArrange 0 0 examplePanels).get? 1 =
      some { left := 100, top := 0, width := 80, height := 60 } ∧
    (Panel.left { left := 0, top := 0, width := 100, height := 50 } +
      Panel.width { left := 0, top := 0, width := 100, height := 50 } ≤
      Panel.left { left := 100, top := 0, width := 80, height := 60 }) :=
  ⟨by decide, by decide, by decide,
    (arrange_spec 0 0 examplePanels).2.2.1 0 1 _ _ (by decide) (by decide) (by decide)⟩

/-- C8: whenever the backend fails to load the image asset, `load_image`
prints which file could not be loaded and terminates the run with an
error carrying the diagnostic message; the result is exactly that
single failure outcome, so the load is neither retried nor recovered
from. -/
theorem load_image_failure (main_dir geterror_msg name : String)
    (loader : String → Option ImageSurface)
    (h : loader (main_dir ++ ("/data/") ++ name) = none) :
    load_image main_dir loader geterror_msg name =
      ([("Cannot load image: ") ++ (main_dir ++ ("/data/") ++ name)],
       Except.error geterror_msg) := by
  simp only [load_image, h]

/-- Witness for C8: a backend that always fails, loading "img.png". -/
theorem load_image_failure_witness :
    ((fun _ : String => (none : Option ImageSurface))
        (("md") ++ ("/data/") ++ ("img.png")) = none) ∧
    load_image ("md") (fun _ => none) ("boom") ("img.png") =
      ([("Cannot load image: ") ++ (("md") ++ ("/data/") ++ ("img.png"))],
       Except.error ("boom")) :=
  ⟨rfl, load_image_failure ("md") ("boom") ("img.png") (fun _ => none) rfl⟩

/-- C9: at program start, before any input event is processed, the
selected Bell state is PHI_PLUS, whose ordinal is 0, and all five
views are built from the PHI_PLUS circuit. -/
theorem initial_state_phi_plus :
    main_init.1 = PHI_PLUS ∧ PHI_PLUS = 0 ∧
    main_init.2.circuit_diagram = create_bell_circuit PHI_PLUS ∧
    main_init.2.unitary_grid = create_bell_circuit PHI_PLUS ∧
    main_init.2.histogram = create_bell_circuit PHI_PLUS ∧
    main_init.2.qsphere = create_bell_circuit PHI_PLUS ∧
    main_init.2.statevector_grid = create_bell_circuit PHI_PLUS := by
  decide

/-- C10: the fixed basis-label list has exactly 4 entries, so both grid
mappers are total exactly on inputs of dimension at most 4: for
dimension at most 4 every label lookup is in bounds and the mapping
succeeds, while for dimension greater than 4 a label lookup goes out of
range and the mapping fails. -/
theorem grid_mapper_dimension_bound (n : Nat) (v : Nat → ℝ × ℝ)
    (u : Nat → Nat → ℝ × ℝ) :
    COMP_BASIS_STATES.length = 4 ∧
    (n ≤ 4 → (mapVector n v).isSome ∧ (mapMatrix n u).isSome) ∧
    (4 < n → mapVector n v = none ∧ mapMatrix n u = none) := by
  refine ⟨rfl, fun h => ⟨?_, ?_⟩, fun h => ⟨?_, mapMatrix_none n u h⟩⟩
  · rw [mapVector, mapVectorAux_some v n 0 (by omega)]
    rfl
  · rw [mapMatrix, mapMatrixAux_some u h n 0 (by omega)]
    rfl
  · rw [mapVector, mapVectorAux_none v n 0 (by omega) (by omega)]

/-- Witness for C10 at dimensions 2 (in bounds) and 5 (out of range). -/
theorem grid_mapper_dimension_bound_witness :
    ((2:Nat) ≤ 4) ∧
    (mapVector 2 (fun _ => ((0:ℝ), (0:ℝ)))).isSome ∧
    (mapMatrix 2 (fun _ _ => ((0:ℝ), (0:ℝ)))).isSome ∧
    (4 < (5:Nat)) ∧
    mapVector 5 (fun _ => ((0:ℝ), (0:ℝ))) = none ∧
    mapMatrix 5 (fun _ _ => ((0:ℝ), (0:ℝ))) = none :=
  ⟨by norm_num,
    ((grid_mapper_dimension_bound 2 (fun _ => ((0:ℝ), (0:ℝ)))
      (fun _ _ => ((0:ℝ), (0:ℝ)))).2.1 (by norm_num)).1,
    ((grid_mapper_dimension_bound 2 (fun _ => ((0:ℝ), (0:ℝ)))
      (fun _ _ => ((0:ℝ), (0:ℝ)))).2.1 (by norm_num)).2,
    by norm_num,
    ((grid_mapper_dimension_bound 5 (fun _ => ((0:ℝ), (0:ℝ)))
      (fun _ _ => ((0:ℝ), (0:ℝ)))).2.2 (by norm_num)).1,
    ((grid_mapper_dimension_bound 5 (fun _ => ((0:ℝ), (0:ℝ)))
      (fun _ _ => ((0:ℝ), (0:ℝ)))).2.2 (by norm_num)).2⟩

end EntangledStates
